import Mathlib

/-!
Verification of the multi-university research pipeline (src/main.py,
src/notion.py) against its natural-language specification.

Python functions are shallowly embedded as Lean definitions.  External
services (HTTP fetches, Firecrawl, SerpApi, Gemini, the Notion API, the JSON
parser) are parameters ("oracles"), while all control flow, string
processing and data shaping logic is translated from the source code.
Machine strings are `String` (Python `len` counts code points, as does
`String.length`), Python dicts over string keys are association lists with
in-place key replacement, and Python exceptions are an explicit error type.
-/

/-- Python exception kinds raised by the embedded code. -/
inductive PyErr where
  | attributeError
  | validationError
  | indexError
  | typeError
  | keyError
  | valueError (msg : String)
  deriving DecidableEq

/-- Characters stripped by Python `str.strip()` (ASCII whitespace). -/
def pyIsSpace (c : Char) : Bool :=
  c = ' ' || c = '\t' || c = '\n' || c = '\r' || c = '\x0b' || c = '\x0c'

/-- Embedding of Python `str.strip()`: drop whitespace from both ends. -/
def pyStrip (s : String) : String :=
  ⟨((s.data.dropWhile pyIsSpace).reverse.dropWhile pyIsSpace).reverse⟩

/-- Embedding of Python `pat in s` (substring containment). -/
def strContains (s pat : String) : Bool :=
  s.data.tails.any (fun t => pat.data.isPrefixOf t)

/-- Embedding of Python `s.replace(pat, repl)` (replace every occurrence). -/
def pyReplace (s pat repl : String) : String :=
  String.intercalate repl (s.splitOn pat)

/-- Embedding of Python `s.find(c)`: index of the first occurrence, `-1` if absent. -/
def pyFind (s : String) (c : Char) : Int :=
  match s.data.findIdx? (fun ch => ch == c) with
  | some i => (i : Int)
  | none => -1

/-- Embedding of Python `s.rfind(c)`: index of the last occurrence, `-1` if absent. -/
def pyRfind (s : String) (c : Char) : Int :=
  match s.data.reverse.findIdx? (fun ch => ch == c) with
  | some i => ((s.data.length - 1 - i : Nat) : Int)
  | none => -1

/-- Embedding of the Python slice `s[a:b]` for in-range `0 ≤ a ≤ b`. -/
def pySlice (s : String) (a b : Nat) : String :=
  ⟨(s.data.drop a).take (b - a)⟩

/-- The greedy paragraph-accumulation loop of
`create_program_summaries_with_gemini` (src/main.py lines 178-183):
paragraphs are appended with their `"\n\n"` separator until the next
addition would push the accumulated length past 30000. -/
def chunkParagraphs : List String → String → String
  | [], acc => acc
  | p :: rest, acc =>
    if 30000 < acc.length + p.length + 2 then acc
    else chunkParagraphs rest (acc ++ (p ++ "\n\n"))

/-- The content-preprocessing step of `create_program_summaries_with_gemini`
(src/main.py lines 176-184): content longer than 30000 characters is
replaced by the stripped greedy paragraph prefix, shorter content passes
through unchanged. -/
def preprocessContent (content : String) : String :=
  if 30000 < content.length then
    pyStrip (chunkParagraphs (content.splitOn "\n\n") "")
  else content

/-- The JSON parse-and-repair step of `create_program_summaries_with_gemini`
(src/main.py lines 334-350).  `parse` is the `json.loads` oracle, returning
`none` on a `JSONDecodeError`.  On a direct-parse failure the response is
sliced from the first `[` to the last `]` and reparsed; failing that, a
terminal `ValueError` is raised. -/
def repairParse {α : Type} (parse : String → Option α) (text : String) : Except PyErr α :=
  match parse text with
  | some v => .ok v
  | none =>
    let startIdx := pyFind text '['
    let endIdx := pyRfind text ']' + 1
    if 0 ≤ startIdx ∧ startIdx < endIdx then
      match parse (pySlice text startIdx.toNat endIdx.toNat) with
      | some v => .ok v
      | none => .error (.valueError "Could not extract valid JSON from Gemini response")
    else .error (.valueError "Could not locate JSON array in Gemini response")

/-- Embedding of `create_program_summaries_with_gemini` (src/main.py lines
175-354): preprocess the content, call the model oracle `gemini` on it, and
parse/repair its response.  All errors propagate to the caller (the outer
handler re-raises). -/
def create_program_summaries_with_gemini {α : Type}
    (gemini : String → Except PyErr String) (parse : String → Option α)
    (content : String) : Except PyErr α :=
  match gemini (preprocessContent content) with
  | .error e => .error e
  | .ok text => repairParse parse text

/-- Statement-side helper: the concatenation of paragraphs, each followed by
its `"\n\n"` separator, exactly as the greedy loop accumulates them. -/
def joinPars (ps : List String) : String :=
  ps.foldr (fun p acc => p ++ "\n\n" ++ acc) ""

/-- A 30001-character input exercising the truncation branch. -/
def bigContentA : String := ⟨List.replicate 30001 'a'⟩

/-- A value stored in a scraped record: a plain string field or the nested
tuition dictionary. -/
inductive Value where
  | vs (s : String)
  | vd (d : List (String × String))
  deriving DecidableEq

/-- A scraped record: a Python dict with string keys, kept in insertion order. -/
abbrev Dict := List (String × Value)

/-- Python dict assignment `d[k] = v` for string-valued dicts: replace the
value in place if the key exists, else append. -/
def dictInsertS : List (String × String) → String → String → List (String × String)
  | [], k, v => [(k, v)]
  | (k', v') :: rest, k, v =>
    if k' = k then (k', v) :: rest else (k', v') :: dictInsertS rest k v

/-- Python dict assignment `d[k] = v` for records. -/
def dictInsert : Dict → String → Value → Dict
  | [], k, v => [(k, v)]
  | (k', v') :: rest, k, v =>
    if k' = k then (k', v) :: rest else (k', v') :: dictInsert rest k v

/-- Python `d.update(other)`. -/
def dictUpdate (d other : Dict) : Dict :=
  other.foldl (fun acc kv => dictInsert acc kv.1 kv.2) d

/-- One iteration of the tuition-table row loop of `scrape_university_details`
(src/main.py lines 113-119): a row whose first cell text is nonempty and
contains `"Graduate"` and which has more than two cells overwrites both
tuition values. -/
def tuitionRowStep (td : List (String × String)) (row : List String) :
    List (String × String) :=
  match row.head? with
  | none => td
  | some programName =>
    if (programName != "") && strContains programName "Graduate" then
      match row with
      | _ :: c1 :: c2 :: _ =>
        dictInsertS (dictInsertS td "domestic_tuition" c1) "international_tuition" c2
      | _ => td
    else td

/-- The tuition-table scan of `scrape_university_details` (src/main.py lines
111-119), over the rows' stripped cell texts. -/
def tuitionScan (rows : List (List String)) : List (String × String) :=
  rows.foldl tuitionRowStep []

/-- Statement-side: does a row satisfy the `"Graduate"` filter and carry both
tuition cells? -/
def rowMatches : List String → Bool
  | c0 :: _ :: _ :: _ => (c0 != "") && strContains c0 "Graduate"
  | _ => false

/-- Statement-side: the last row satisfying `rowMatches`, in document order. -/
def lastMatchingRow (rows : List (List String)) : Option (List String) :=
  rows.foldl (fun acc r => if rowMatches r then some r else acc) none

/-- The `<a>` inside the Website `<dd>`, which may lack an `href` attribute. -/
structure ANode where
  href : Option String
  deriving DecidableEq

/-- The `<dd>` sibling holding the website link, which may contain no `<a>`. -/
structure DdNode where
  firstA : Option ANode
  deriving DecidableEq

/-- The Website `<dt>` label; `find_next_sibling('dd')` may yield nothing. -/
structure DtEntry where
  nextDd : Option DdNode
  deriving DecidableEq

/-- What `scrape_university_details` reads from a fetched detail page: the
first Website label (if any) and the first tuition table (if any), whose
`<tbody>` may be missing and whose rows are lists of stripped cell texts. -/
structure DetailDoc where
  websiteDt : Option DtEntry
  tuitionTable : Option (Option (List (List String)))
  deriving DecidableEq

/-- The Website-URL extraction (src/main.py lines 102-106): a missing `<dd>`
sibling or a missing `href` raises `AttributeError`; an absent label, or a
label whose `<dd>` holds no `<a>`, silently yields no field. -/
def websitePart : Option DtEntry → Except PyErr Dict
  | none => .ok []
  | some dt =>
    match dt.nextDd with
    | none => .error .attributeError
    | some dd =>
      match dd.firstA with
      | none => .ok []
      | some a =>
        match a.href with
        | none => .error .attributeError
        | some h => .ok [("url", .vs (pyReplace h "?from=edurank.org" ""))]

/-- The field extraction of `scrape_university_details` over a fetched page
(src/main.py lines 98-123): the URL step, then the tuition step; a tuition
table with no `<tbody>` raises `AttributeError`. -/
def detailsExtract (doc : DetailDoc) : Except PyErr Dict :=
  match websitePart doc.websiteDt with
  | .error e => .error e
  | .ok d1 =>
    match doc.tuitionTable with
    | none => .ok d1
    | some none => .error .attributeError
    | some (some rows) => .ok (dictInsert d1 "tuition" (.vd (tuitionScan rows)))

/-- Embedding of `scrape_university_details` (src/main.py lines 89-133): a
failed fetch (`RequestException`) or any exception raised during extraction
is caught and the whole call degrades to the empty dict. -/
def scrape_university_details (fetched : Except Unit DetailDoc) : Dict :=
  match fetched with
  | .error _ => []
  | .ok doc =>
    match detailsExtract doc with
    | .ok d => d
    | .error _ => []

/-- The `<a>` inside a container's `<h2>`: stripped display text and
optional href. -/
structure NameLink where
  text : String
  href : Option String
  deriving DecidableEq

/-- A container's `<h2>` heading, which may contain no `<a>`. -/
structure H2Node where
  firstA : Option NameLink
  deriving DecidableEq

/-- A link in the `uni-card__geo` div: href attribute and stripped text. -/
structure GeoLink where
  href : String
  text : String
  deriving DecidableEq

/-- One entity container (`div` of class `block-cont pt-4 mb-4`) on the
ranking page: heading, geography div, and info list of
(`<dt>` text, optional `<dd>` sibling text) pairs. -/
structure Container where
  h2 : Option H2Node
  locationDiv : Option (List GeoLink)
  infoList : Option (List (String × Option String))
  deriving DecidableEq

/-- Character class `[a-z-]` of the state-link pattern. -/
def isLowerDash (c : Char) : Bool :=
  ('a' ≤ c && c ≤ 'z') || c == '-'

/-- Does a match of the pattern `geo/[a-z-]+/` start at the head of `l`? -/
def geoSegAt (l : List Char) : Bool :=
  match l with
  | 'g' :: 'e' :: 'o' :: '/' :: rest =>
    let run := rest.takeWhile isLowerDash
    decide (1 ≤ run.length) && (rest.get? run.length == some '/')
  | _ => false

/-- Embedding of `re.compile(r'geo/[a-z-]+/')` under BeautifulSoup's search
semantics: the pattern may match anywhere in the href. -/
def isStateLink (href : String) : Bool :=
  href.data.tails.any geoSegAt

/-- Embedding of `re.compile(r'geo/us/|geo/ca/')` under search semantics. -/
def isCountryLink (href : String) : Bool :=
  strContains href "geo/us/" || strContains href "geo/ca/"

/-- Embedding of `re.sub(r'^\d+\.\s*', '', s)` (src/main.py line 380): strip
a leading rank number, its period, and following whitespace, if present. -/
def stripRank (s : String) : String :=
  let ds := s.data.takeWhile Char.isDigit
  if ds.isEmpty then s
  else
    match s.data.drop ds.length with
    | '.' :: r => ⟨r.dropWhile pyIsSpace⟩
    | _ => s

/-- The nine-region allow-list hardcoded in `scrape_university_list`
(src/main.py lines 397-406). -/
def nineStates : List String :=
  ["Connecticut", "Maine", "Massachusetts", "New Hampshire", "Rhode Island",
   "Vermont", "New Jersey", "New York", "Pennsylvania"]

/-- Name step (src/main.py lines 377-381): the record seeded with the
rank-stripped name when the heading link exists. -/
def nameDict (h2 : H2Node) : Dict :=
  match h2.firstA with
  | some nt => [("name", .vs (stripRank nt.text))]
  | none => []

/-- The entity's detail-page link (`name_tag.get('href')`, line 381). -/
def linkOf (h2 : H2Node) : Option String :=
  h2.firstA.bind (fun nt => nt.href)

/-- Country extraction (src/main.py lines 386-390): the first geo link whose
href matches the country pattern. -/
def countryStep (d0 : Dict) (links : List GeoLink) : Dict :=
  match links.find? (fun l => isCountryLink l.href) with
  | some ct => dictInsert d0 "country" (.vs ct.text)
  | none => d0

/-- Geography step (src/main.py lines 384-407): the sub-national region is
the second state-pattern link; country names are suppressed; an extracted
region outside the nine-region allow-list makes the loop `continue`,
signalled here by `none`. -/
def geoStep (d0 : Dict) (loc : Option (List GeoLink)) : Option Dict :=
  match loc with
  | none => some d0
  | some links =>
    let d1 := countryStep d0 links
    match (links.filter (fun l => isStateLink l.href)).get? 1 with
    | some st =>
      if st.text ∈ ["United States", "Canada"] then some d1
      else if st.text ∈ nineStates then some (dictInsert d1 "state" (.vs st.text))
      else none
    | none => some d1

/-- Which record field each `<dt>` label feeds (src/main.py lines 417-430). -/
def infoKeyField (key : String) : Option String :=
  if key = "Acceptance Rate" then some "acceptance_rate"
  else if key = "Average SAT" then some "average_sat"
  else if key = "Average ACT" then some "average_act"
  else if key = "Net Price" then some "net_price"
  else if key = "Receiving Aid" then some "receiving_aid"
  else if key = "Enrollment" then some "enrollment"
  else if key = "Founded" then some "founded"
  else none

/-- Info-list step (src/main.py lines 410-430): each `<dt>` with a `<dd>`
sibling and a recognised label stores its stripped value. -/
def applyInfo (d : Dict) (entries : List (String × Option String)) : Dict :=
  entries.foldl
    (fun acc kv =>
      match kv.2 with
      | some v =>
        match infoKeyField kv.1 with
        | some f => dictInsert acc f (.vs v)
        | none => acc
      | none => acc)
    d

/-- The info list is only read when present (src/main.py line 411). -/
def infoStep (d : Dict) (il : Option (List (String × Option String))) : Dict :=
  match il with
  | some es => applyInfo d es
  | none => d

/-- Detail merge (src/main.py lines 433-435): `university_data.update(...)`
with the (already exception-absorbing) detail-scrape result `fetch u`. -/
def mergeDetails (fetch : String → Dict) (d : Dict) (edurank : Option String) : Dict :=
  match edurank with
  | some u => dictUpdate d (fetch u)
  | none => d

/-- The outcome of processing one entity container: skipped by the region
filter, aborted before the store create, aborted at validation after the
store create, or completed. -/
inductive ItemOutcome where
  | skipped
  | earlyError (e : PyErr)
  | createdButError (d : Dict) (e : PyErr)
  | ok (d : Dict)
  deriving DecidableEq

/-- Validation `University(**university_data)` (src/main.py line 438):
pydantic requires the `name` field; the store entry was already created on
line 437, before validation runs. -/
def finalize (d : Dict) : ItemOutcome :=
  if (d.lookup "name").isSome then .ok d else .createdButError d .validationError

/-- Processing of one entity container in `scrape_university_list`
(src/main.py lines 372-438).  `fetch` maps a detail-page URL to the result
of `scrape_university_details`.  A container with no `<h2>` raises
`AttributeError` on line 377 before anything else happens. -/
def processContainer (fetch : String → Dict) (c : Container) : ItemOutcome :=
  match c.h2 with
  | none => .earlyError .attributeError
  | some h2 =>
    match geoStep (nameDict h2) c.locationDiv with
    | none => .skipped
    | some d2 => finalize (mergeDetails fetch (infoStep d2 c.infoList) (linkOf h2))

/-- The entity's detail-page link, read off the container. -/
def detailLink (c : Container) : Option String :=
  match c.h2 with
  | some h2 => linkOf h2
  | none => none

/-- Cons onto a pending list result, propagating a pending error. -/
def consExcept (d : Dict) : Except PyErr (List Dict) → Except PyErr (List Dict)
  | .ok l => .ok (d :: l)
  | .error e => .error e

/-- Embedding of the container loop of `scrape_university_list` (src/main.py
lines 356-445).  First component: the endpoint's result — the returned list
of records, or the `HTTPException` produced by the outer handler when an
exception escapes the loop.  Second component: the records passed to
`create_university_entry` (which happens before validation). -/
def scrapeUniversityList (fetch : String → Dict) :
    List Container → Except PyErr (List Dict) × List Dict
  | [] => (.ok [], [])
  | c :: rest =>
    match processContainer fetch c with
    | .skipped => scrapeUniversityList fetch rest
    | .earlyError e => (.error e, [])
    | .createdButError d e => (.error e, [d])
    | .ok d =>
      (consExcept d (scrapeUniversityList fetch rest).1,
       d :: (scrapeUniversityList fetch rest).2)

/-- A container with no `<h2>` heading. -/
def cNoH2 : Container := ⟨none, none, none⟩

/-- A well-formed container with a name but no detail link. -/
def cPlainName : Container := ⟨some ⟨some ⟨"1. A University", none⟩⟩, none, none⟩

/-- A container whose heading holds no `<a>`: no name and no detail link. -/
def cNoNameLink : Container := ⟨some ⟨none⟩, none, none⟩

/-- A container whose second geographic link is California, outside the
nine-region allow-list. -/
def cCalifornia : Container :=
  ⟨some ⟨some ⟨"5. Stanford University", some "https://edurank.org/uni/stanford"⟩⟩,
   some [⟨"https://edurank.org/geo/us/", "United States"⟩,
         ⟨"https://edurank.org/geo/us/california/", "California"⟩],
   none⟩

/-- A container with a detail-page link, for exercising the failed-fetch merge. -/
def cLinked : Container :=
  ⟨some ⟨some ⟨"2. B University", some "https://edurank.org/uni/b"⟩⟩, none, none⟩

/-- A fetch oracle that yields the empty dict (a failed detail scrape) on
`cLinked`'s URL and something nonempty elsewhere. -/
def fetchEmptyOnB : String → Dict :=
  fun u => if u = "https://edurank.org/uni/b" then [] else [("url", Value.vs "x")]

/-- Geo links whose second state-pattern link is New York. -/
def nyGeoLinks : List GeoLink :=
  [⟨"https://edurank.org/geo/us/", "United States"⟩,
   ⟨"https://edurank.org/geo/us/new-york/", "New York"⟩]

/-- A loosely-typed JSON-ish value, as handled by the Python code when it
walks Notion responses with chained `.get` calls. -/
inductive JVal where
  | null
  | str (s : String)
  | arr (l : List JVal)
  | obj (o : List (String × JVal))

/-- Python truthiness for the values above. -/
def jTruthy : JVal → Bool
  | .null => false
  | .str s => s != ""
  | .arr l => !l.isEmpty
  | .obj o => !o.isEmpty

/-- Python `v.get(k, default)`: only dicts have `.get`; any other receiver
raises `AttributeError`. -/
def jGet (v : JVal) (k : String) (dflt : JVal) : Except PyErr JVal :=
  match v with
  | .obj o => .ok ((o.lookup k).getD dflt)
  | _ => .error .attributeError

/-- Python `v[0]`: lists and strings index (an empty one raises
`IndexError`), dicts raise `KeyError`, `None` raises `TypeError`. -/
def jIndex0 : JVal → Except PyErr JVal
  | .arr [] => .error .indexError
  | .arr (x :: _) => .ok x
  | .str s =>
    match s.data with
    | [] => .error .indexError
    | c :: _ => .ok (.str ⟨[c]⟩)
  | .obj _ => .error .keyError
  | .null => .error .typeError

/-- Python `len(v)`: `None` has no length. -/
def jLen : JVal → Except PyErr Nat
  | .str s => .ok s.length
  | .arr l => .ok l.length
  | .obj o => .ok o.length
  | .null => .error .typeError

/-- The host group `[^/]+` of the domain pattern: a nonempty run of
non-slash characters. -/
def hostRun (l : List Char) : Option String :=
  let run := l.takeWhile (fun c => c != '/')
  if run.isEmpty then none else some ⟨run⟩

/-- Matching of `(?:www\.)?([^/]+)` with backtracking on the optional
`www.` group. -/
def afterSchemeMatch (l : List Char) : Option String :=
  if "www.".data.isPrefixOf l then
    match hostRun (l.drop 4) with
    | some h => some h
    | none => hostRun l
  else hostRun l

/-- Does `https?://(?:www\.)?([^/]+)` match at the head of `l`?  Returns the
captured group. -/
def schemeAt (l : List Char) : Option String :=
  if "https://".data.isPrefixOf l then afterSchemeMatch (l.drop 8)
  else if "http://".data.isPrefixOf l then afterSchemeMatch (l.drop 7)
  else none

/-- Embedding of `re.search(r'https?://(?:www\.)?([^/]+)', s)` (src/main.py
line 473): the captured domain at the first matching position. -/
def domainMatch (s : String) : Option String :=
  s.data.tails.findSome? schemeAt

/-- The status payload a stored-entry workflow returns. -/
inductive WStatus where
  | noEntries
  | success
  deriving DecidableEq

/-- The per-entry body of `update_program_details` (src/main.py lines
458-491).  `search` is the (internally exception-absorbing)
`search_for_program_page` oracle; `ok none` models `continue` without a
store write; `ok (some (pageId, url))` models the property patch performed
via `update_university_entry`. -/
def updateBody (search : String → Option String) (entry : JVal) :
    Except PyErr (Option (JVal × String)) := do
  let pageId ← jGet entry "id" .null
  let props ← jGet entry "properties" (.obj [])
  let nameHolder ← jGet props "Name" (.obj [])
  let nameProp ← jGet nameHolder "title" (.arr [])
  if !jTruthy nameProp then return none
  let nameEntry ← jIndex0 nameProp
  let nameText ← jGet nameEntry "text" (.obj [])
  let _uniName ← jGet nameText "content" .null
  let urlProp ← jGet props "Official Website" (.obj [])
  let officialUrl ← jGet urlProp "url" .null
  if !jTruthy officialUrl then return none
  let urlStr ← match officialUrl with
    | .str s => Except.ok s
    | _ => Except.error .typeError
  match domainMatch urlStr with
  | none => return none
  | some domain =>
    match search domain with
    | some programUrl => return some (pageId, programUrl)
    | none => return none

/-- The name lookup performed inside the per-entry `except` handlers of all
three stored-entry workflows (src/main.py lines 493, 534-535 and 575-576):
`entry.get("properties", {}).get("Name", {}).get("title", [{}])[0]
.get("text", {}).get("content", "Unknown")`.  This chain runs on the raw
entry; an exception raised here occurs inside the `except` block, is NOT
caught by the surrounding `try`, and escapes the loop. -/
def handlerName (entry : JVal) : Except PyErr JVal := do
  let props ← jGet entry "properties" (.obj [])
  let nameHolder ← jGet props "Name" (.obj [])
  let title ← jGet nameHolder "title" (.arr [.obj []])
  let first ← jIndex0 title
  let text ← jGet first "text" (.obj [])
  jGet text "content" (.str "Unknown")

/-- One iteration of a stored-entry loop: run the body inside `try`; on an
exception, the handler logs the entry's name — if that lookup itself
raises, the new exception escapes the loop; otherwise `continue`. -/
def entryStep {C : Type} (body : JVal → Except PyErr (Option C)) (e : JVal) :
    Except PyErr (List C) :=
  match body e with
  | .ok (some c) => .ok [c]
  | .ok none => .ok []
  | .error _ =>
    match handlerName e with
    | .ok _ => .ok []
    | .error err2 => .error err2

/-- The `for entry in all_entries` loop shared by the three stored-entry
workflows: store writes accumulate left to right; an exception escaping an
iteration ends the loop (writes already performed stand, later entries are
never processed) and surfaces as a caller-facing error. -/
def runEntries {C : Type} (body : JVal → Except PyErr (Option C)) :
    List JVal → Except PyErr WStatus × List C
  | [] => (.ok .success, [])
  | e :: rest =>
    match entryStep body e with
    | .error err => (.error err, [])
    | .ok cs =>
      ((runEntries body rest).1, cs ++ (runEntries body rest).2)

/-- The common shape of the three stored-entry endpoints: the no-entries
early return, else the entry loop; an escaped exception becomes the
endpoint's caller-facing error (FastAPI 500). -/
def workflowLoop {C : Type} (body : JVal → Except PyErr (Option C))
    (entries : List JVal) : Except PyErr WStatus × List C :=
  if entries.isEmpty then (.ok .noEntries, [])
  else runEntries body entries

/-- Embedding of the `update_program_details` workflow (src/main.py lines
447-497): the returned status (or escaped exception) plus the property
patches performed. -/
def update_program_details (search : String → Option String) (entries : List JVal) :
    Except PyErr WStatus × List (JVal × String) :=
  workflowLoop (updateBody search) entries

/-- The result shape of `get_program_details_with_firecrawl` (src/main.py
lines 135-173): that function catches every exception, returning either an
error marker or a markdown artifact path. -/
inductive FcRes where
  | fcError (msg : String)
  | fcPath (p : String)

/-- The per-entry body of `scrape_program_details` (src/main.py lines
506-531). -/
def scrapeProgBody (fc : JVal → FcRes) (entry : JVal) :
    Except PyErr (Option (JVal × String)) := do
  let pageId ← jGet entry "id" .null
  let props ← jGet entry "properties" (.obj [])
  let nameHolder ← jGet props "Name" (.obj [])
  let nameProp ← jGet nameHolder "title" (.arr [])
  if !jTruthy nameProp then return none
  let urlProp ← jGet props "Official Website" (.obj [])
  let officialUrl ← jGet urlProp "url" .null
  if !jTruthy officialUrl then return none
  match fc officialUrl with
  | .fcError _ => return none
  | .fcPath p => return some (pageId, p)

/-- Embedding of the `scrape_program_details` workflow (src/main.py lines
499-539): status (or escaped exception) plus the markdown attachments
performed. -/
def scrape_program_details (fc : JVal → FcRes) (entries : List JVal) :
    Except PyErr WStatus × List (JVal × String) :=
  workflowLoop (scrapeProgBody fc) entries

/-- The per-entry body of `create_program_summaries` (src/main.py lines
548-578).  `download` is the `requests.get` oracle (status code, body). -/
def summariesBody {α : Type} (download : String → Nat × String)
    (gemini : String → Except PyErr String) (parse : String → Option α)
    (entry : JVal) : Except PyErr (Option (JVal × α)) := do
  let pageId ← jGet entry "id" .null
  let props ← jGet entry "properties" (.obj [])
  let mdProp ← jGet props "Markdown" (.obj [])
  let mdFiles ← jGet mdProp "files" (.arr [])
  if !jTruthy mdFiles then return none
  let n ← jLen mdFiles
  if n = 0 then return none
  let f0 ← jIndex0 mdFiles
  let fileObj ← jGet f0 "file" (.obj [])
  let fileUrl ← jGet fileObj "url" .null
  if !jTruthy fileUrl then return none
  let urlStr ← match fileUrl with
    | .str s => Except.ok s
    | _ => Except.error .typeError
  let (status, text) := download urlStr
  if status ≠ 200 then return none
  let content ← create_program_summaries_with_gemini gemini parse text
  return some (pageId, content)

/-- Embedding of the `create_program_summaries` workflow (src/main.py lines
541-580): status (or escaped exception) plus the block appends performed. -/
def create_program_summaries {α : Type} (download : String → Nat × String)
    (gemini : String → Except PyErr String) (parse : String → Option α)
    (entries : List JVal) : Except PyErr WStatus × List (JVal × α) :=
  workflowLoop (summariesBody download gemini parse) entries

/-- Embedding of the pagination loop of `get_all_university_entries`
(src/notion.py lines 59-70) over a store presenting its pages as a chain:
querying cursor `i` yields page `i`, and the response's `has_more` and
`next_cursor` point at page `i + 1` exactly while pages remain.  A page may
fail with a store error. -/
def listAllLoop {H : Type} (chain : List (Except String (List H))) (cursor : Nat) :
    Except String (List H) :=
  match chain.get? cursor with
  | none => .ok []
  | some (.error e) => .error e
  | some (.ok rs) =>
    if h : cursor + 1 < chain.length then
      match listAllLoop chain (cursor + 1) with
      | .ok restRes => .ok (rs ++ restRes)
      | .error e => .error e
    else .ok rs
termination_by chain.length - cursor
decreasing_by omega

/-- Embedding of `get_all_university_entries` (src/notion.py lines 56-73):
any store error anywhere in the pagination is caught and the whole call
returns the empty list. -/
def get_all_university_entries {H : Type} (chain : List (Except String (List H))) :
    List H :=
  match listAllLoop chain 0 with
  | .ok l => l
  | .error _ => []

/-- The Notion page properties built by `create_university_entry`
(src/notion.py lines 26-30). -/
structure PageProps where
  nameTitle : Value
  websiteUrl : Option Value
  stateText : Value
  deriving DecidableEq

/-- Properties construction: missing `name` and `state` default to the empty
string; a missing `url` passes through as `None`. -/
def buildCreateProps (data : Dict) : PageProps :=
  ⟨(data.lookup "name").getD (.vs ""), data.lookup "url",
   (data.lookup "state").getD (.vs "")⟩

/-- Embedding of `create_university_entry` (src/notion.py lines 21-35):
`createPage` is the `notion.pages.create` oracle; every failure is caught,
logged, and turned into `None`. -/
def create_university_entry {Page : Type} (createPage : PageProps → Except String Page)
    (data : Dict) : Option Page :=
  match createPage (buildCreateProps data) with
  | .ok p => some p
  | .error _ => none

/-- A call made against the Notion API or the filesystem by
`update_university_entry`, in execution order. -/
inductive NCall where
  | pagesUpdate (pageId : String) (props : List (String × JVal))
  | upload (path : String)
  | markdownWrite (pageId : String) (fileId : String)
  | unlink (path : String)
  | appendChildren (pageId : String) (content : List JVal)

/-- The environment of `update_university_entry`: filesystem and Notion
oracles, with success flags for the remote mutations. -/
structure NotionEnv where
  fileExists : String → Bool
  uploadFid : String → String
  uploadOk : Bool
  propsUpdateOk : Bool
  mdUpdateOk : Bool
  appendOk : Bool

/-- The property-patch call (src/notion.py lines 78-82): the patch dict is
stored into `update_args` whenever it is not `None`, but the API call only
happens when the dict is also truthy (nonempty). -/
def propsCallsOf (pageId : String) (properties : Option (List (String × JVal))) :
    List NCall :=
  match properties with
  | some p => if p.isEmpty then [] else [.pagesUpdate pageId p]
  | none => []

/-- Does the property-patch call happen and fail? -/
def propsFails (env : NotionEnv) (properties : Option (List (String × JVal))) : Bool :=
  match properties with
  | some p => !p.isEmpty && !env.propsUpdateOk
  | none => false

/-- The child-append step (src/notion.py lines 107-112): performed whenever
`content` is not `None`, even when empty. -/
def contentStep (env : NotionEnv) (pageId : String) (content : Option (List JVal))
    (calls : List NCall) : Bool × List NCall :=
  match content with
  | some c => (env.appendOk, calls ++ [.appendChildren pageId c])
  | none => (true, calls)

/-- Embedding of `update_university_entry` (src/notion.py lines 75-115):
returns the overall success flag plus the attempted calls in order.  Any
failing call is caught, ends the function with `False` and skips the
remaining facets; the artifact is unlinked only after both the upload and
the Markdown property write succeed. -/
def update_university_entry (env : NotionEnv) (pageId : String)
    (properties : Option (List (String × JVal))) (content : Option (List JVal))
    (markdownPath : Option String) : Bool × List NCall :=
  let calls1 := propsCallsOf pageId properties
  if propsFails env properties then (false, calls1)
  else
    match markdownPath with
    | some mp =>
      if (mp != "") && env.fileExists mp then
        if env.uploadOk then
          if env.mdUpdateOk then
            contentStep env pageId content
              (calls1 ++ [.upload mp, .markdownWrite pageId (env.uploadFid mp), .unlink mp])
          else (false, calls1 ++ [.upload mp, .markdownWrite pageId (env.uploadFid mp)])
        else (false, calls1 ++ [.upload mp])
      else contentStep env pageId content calls1
    | none => contentStep env pageId content calls1

/-- An all-success Notion environment. -/
def envAllOk : NotionEnv := ⟨fun _ => true, fun _ => "fid", true, true, true, true⟩

/-- A search oracle for the workflow witnesses. -/
def searchW : String → Option String := fun _ => some "https://example.edu/msds"

/-- A malformed stored entry: a bare string instead of a page object. -/
def entryBad : JVal := .str "oops"

/-- A well-formed stored entry. -/
def entryGood : JVal :=
  .obj [("id", .str "p1"),
        ("properties", .obj
          [("Name", .obj
             [("title", .arr [.obj [("text", .obj [("content", .str "MIT")])]])]),
           ("Official Website", .obj [("url", .str "https://www.mit.edu/")])])]

/-- An entry whose body raises (its `Official Website` property is a bare
string, so `.get("url")` raises `AttributeError`) but whose name chain is
intact, so the per-entry handler logs it and the loop continues. -/
def entryHandled : JVal :=
  .obj [("id", .str "p2"),
        ("properties", .obj
          [("Name", .obj
             [("title", .arr [.obj [("text", .obj [("content", .str "X University")])]])]),
           ("Official Website", .str "broken")])]

/- ### String helper lemmas -/

theorem sData_append (a b : String) : (a ++ b).data = a.data ++ b.data := by
  cases a; cases b; rfl

theorem sLen_mk (l : List Char) : (String.mk l).length = l.length := rfl

theorem sLen_append (a b : String) : (a ++ b).length = a.length + b.length := by
  cases a with
  | mk la =>
    cases b with
    | mk lb => exact List.length_append la lb

theorem sAppend_empty (a : String) : a ++ "" = a := by
  cases a with
  | mk la => exact congrArg String.mk (List.append_nil la)

theorem sEmpty_append (a : String) : "" ++ a = a := by
  cases a with
  | mk la => rfl

theorem sAppend_assoc (a b c : String) : a ++ b ++ c = a ++ (b ++ c) := by
  cases a with
  | mk la =>
    cases b with
    | mk lb =>
      cases c with
      | mk lc => exact congrArg String.mk (List.append_assoc la lb lc)

theorem length_dropWhile_le' (p : Char → Bool) (l : List Char) :
    (l.dropWhile p).length ≤ l.length := by
  induction l with
  | nil => simp [List.dropWhile]
  | cons a t ih =>
    by_cases h : p a
    · simp only [List.dropWhile, h]
      simpa using Nat.le_succ_of_le ih
    · simp [List.dropWhile, h]

theorem joinPars_nil : joinPars [] = "" := rfl

theorem joinPars_cons (p : String) (l : List String) :
    joinPars (p :: l) = p ++ "\n\n" ++ joinPars l := rfl

theorem pyStrip_length_le (s : String) : (pyStrip s).length ≤ s.length := by
  have h1 : ((s.data.dropWhile pyIsSpace).reverse.dropWhile pyIsSpace).length
      ≤ (s.data.dropWhile pyIsSpace).reverse.length := length_dropWhile_le' _ _
  have h2 : (s.data.dropWhile pyIsSpace).length ≤ s.data.length :=
    length_dropWhile_le' _ _
  simp only [pyStrip, sLen_mk, List.length_reverse] at *
  calc ((s.data.dropWhile pyIsSpace).reverse.dropWhile pyIsSpace).length
      ≤ (s.data.dropWhile pyIsSpace).length := by simpa using h1
    _ ≤ s.data.length := h2

/- ### Truncation lemmas -/

theorem chunkParagraphs_exists (ps : List String) :
    ∀ acc : String, ∃ k, k ≤ ps.length ∧
      chunkParagraphs ps acc = acc ++ joinPars (ps.take k) := by
  induction ps with
  | nil =>
    intro acc
    exact ⟨0, Nat.le_refl 0, by simp [chunkParagraphs, joinPars_nil, sAppend_empty]⟩
  | cons p rest ih =>
    intro acc
    by_cases h : 30000 < acc.length + p.length + 2
    · exact ⟨0, Nat.zero_le _, by simp [chunkParagraphs, if_pos h, joinPars_nil, sAppend_empty]⟩
    · obtain ⟨k, hk, he⟩ := ih (acc ++ (p ++ "\n\n"))
      refine ⟨k + 1, Nat.succ_le_succ hk, ?_⟩
      simp only [chunkParagraphs, if_neg h, he, List.take_succ_cons, joinPars_cons]
      exact sAppend_assoc acc (p ++ "\n\n") _

theorem chunkParagraphs_length (ps : List String) :
    ∀ acc : String, acc.length ≤ 30000 → (chunkParagraphs ps acc).length ≤ 30000 := by
  induction ps with
  | nil => intro acc hacc; simpa [chunkParagraphs] using hacc
  | cons p rest ih =>
    intro acc hacc
    by_cases h : 30000 < acc.length + p.length + 2
    · simpa [chunkParagraphs, if_pos h] using hacc
    · simp only [chunkParagraphs, if_neg h]
      apply ih
      have : (acc ++ (p ++ "\n\n")).length = acc.length + (p.length + 2) := by
        rw [sLen_append, sLen_append]
        rfl
      omega

/-- C4: for content longer than the 30000-character ceiling the Summarizer
preprocessing emits (the stripped form of) a whole number of leading
paragraphs — units of the blank-line split, each kept with its separator —
of total length at most 30000, and never splits inside a paragraph; content
at or below the ceiling passes through unchanged. -/
theorem c4_truncation_paragraph_aligned (content : String) :
    (30000 < content.length →
      ∃ k, k ≤ (content.splitOn "\n\n").length ∧
        preprocessContent content = pyStrip (joinPars ((content.splitOn "\n\n").take k)) ∧
        (preprocessContent content).length ≤ 30000) ∧
    (content.length ≤ 30000 → preprocessContent content = content) := by
  constructor
  · intro h
    obtain ⟨k, hk, he⟩ := chunkParagraphs_exists (content.splitOn "\n\n") ""
    refine ⟨k, hk, ?_, ?_⟩
    · simp only [preprocessContent, if_pos h, he, sEmpty_append]
    · simp only [preprocessContent, if_pos h]
      exact le_trans (pyStrip_length_le _)
        (chunkParagraphs_length _ "" (by simp [String.length]))
  · intro h
    have hnc : ¬ 30000 < content.length := by omega
    simp only [preprocessContent, if_neg hnc]

/-- Witness for C4: the truncation branch at a concrete 30001-character
input, and the pass-through branch at a short input. -/
theorem c4_truncation_witness :
    (30000 < bigContentA.length ∧
      ∃ k, k ≤ (bigContentA.splitOn "\n\n").length ∧
        preprocessContent bigContentA =
          pyStrip (joinPars ((bigContentA.splitOn "\n\n").take k)) ∧
        (preprocessContent bigContentA).length ≤ 30000) ∧
    ("hi".length ≤ 30000 ∧ preprocessContent "hi" = "hi") := by
  have hbig : 30000 < bigContentA.length := by
    show 30000 < (String.mk (List.replicate 30001 'a')).length
    rw [sLen_mk, List.length_replicate]
    omega
  have hsmall : "hi".length ≤ 30000 := by
    rw [show "hi".length = 2 from rfl]; omega
  exact ⟨⟨hbig, (c4_truncation_paragraph_aligned bigContentA).1 hbig⟩,
    ⟨hsmall, (c4_truncation_paragraph_aligned "hi").2 hsmall⟩⟩

/-- C5: the Summarizer parses the model response directly and returns the
parsed value on success; on a direct-parse failure it reparses exactly the
substring from the first `[` through the last `]` and returns that result
(success or terminal `ValueError`); a response with no `[` fails with a
terminal `ValueError`.  The model oracle is consulted exactly once (the
definition of `create_program_summaries_with_gemini` contains a single call
to `gemini`, so no re-call occurs on the repair path). -/
theorem c5_json_parse_repair {α : Type} (gemini : String → Except PyErr String)
    (parse : String → Option α) (content text : String)
    (hg : gemini (preprocessContent content) = .ok text) :
    (∀ v, parse text = some v →
      create_program_summaries_with_gemini gemini parse content = .ok v) ∧
    (parse text = none →
      ∀ i jr, text.data.findIdx? (fun ch => ch == '[') = some i →
        text.data.reverse.findIdx? (fun ch => ch == ']') = some jr →
        i ≤ text.data.length - 1 - jr →
        create_program_summaries_with_gemini gemini parse content =
          (match parse ⟨(text.data.drop i).take (text.data.length - 1 - jr + 1 - i)⟩ with
           | some v => .ok v
           | none => .error (.valueError "Could not extract valid JSON from Gemini response"))) ∧
    (parse text = none → text.data.findIdx? (fun ch => ch == '[') = none →
      create_program_summaries_with_gemini gemini parse content =
        .error (.valueError "Could not locate JSON array in Gemini response")) := by
  refine ⟨?_, ?_, ?_⟩
  · intro v hv
    simp [create_program_summaries_with_gemini, hg, repairParse, hv]
  · intro hp i jr hf hr hij
    have hfind : pyFind text '[' = (i : Int) := by simp [pyFind, hf]
    have hrfind : pyRfind text ']' = ((text.data.length - 1 - jr : Nat) : Int) := by
      simp [pyRfind, hr]
    have hcond : (0 : Int) ≤ (i : Int) ∧
        (i : Int) < ((text.data.length - 1 - jr : Nat) : Int) + 1 := by
      constructor
      · exact Int.ofNat_nonneg i
      · omega
    have htn1 : ((i : Int)).toNat = i := by omega
    have htn2 : (((text.data.length - 1 - jr : Nat) : Int) + 1).toNat
        = text.data.length - 1 - jr + 1 := by omega
    simp only [create_program_summaries_with_gemini, hg, repairParse, hp,
      hfind, hrfind, if_pos hcond, htn1, htn2]
    rfl
  · intro hp hf
    have hfind : pyFind text '[' = -1 := by simp [pyFind, hf]
    have hcond : ¬((0 : Int) ≤ pyFind text '[' ∧ pyFind text '[' < pyRfind text ']' + 1) := by
      rw [hfind]; intro hcc; omega
    simp only [create_program_summaries_with_gemini, hg, repairParse, hp, if_neg hcond]

/-- A concrete `json.loads` oracle for the C5 witness: accepts exactly the
inner array text. -/
def c5ParseOracle : String → Option Nat :=
  fun s => if s = "[7]" then some 7 else none

/-- Witness for C5: the malformed response `"garbage[7]trailer"` is repaired
to the inner bracketed substring and parsed successfully. -/
theorem c5_json_parse_repair_witness :
    c5ParseOracle "garbage[7]trailer" = none ∧
    "garbage[7]trailer".data.findIdx? (fun ch => ch == '[') = some 7 ∧
    "garbage[7]trailer".data.reverse.findIdx? (fun ch => ch == ']') = some 7 ∧
    create_program_summaries_with_gemini (fun _ => Except.ok "garbage[7]trailer")
      c5ParseOracle "content" = .ok 7 := by
  refine ⟨by decide, by decide, by decide, ?_⟩
  have h := (c5_json_parse_repair (fun _ => Except.ok "garbage[7]trailer")
    c5ParseOracle "content" "garbage[7]trailer" rfl).2.1 (by decide)
    7 7 (by decide) (by decide) (by decide)
  exact h.trans rfl

/- ### Dict lemmas -/

theorem dictUpdate_nil (d : Dict) : dictUpdate d [] = d := rfl

theorem dictInsert_lookup (d : Dict) (k : String) (v : Value) (k' : String) :
    (dictInsert d k v).lookup k' = if k' = k then some v else d.lookup k' := by
  induction d with
  | nil =>
    by_cases h : k' = k
    · have hb : (k' == k) = true := beq_iff_eq.mpr h
      simp [dictInsert, List.lookup, hb, h]
    · have hb : (k' == k) = false := beq_eq_false_iff_ne.mpr h
      simp [dictInsert, List.lookup, hb, h]
  | cons kv rest ih =>
    obtain ⟨k1, v1⟩ := kv
    by_cases h1 : k1 = k
    · by_cases h2 : k' = k1
      · have hb : (k' == k1) = true := beq_iff_eq.mpr h2
        have hb2 : (k == k1) = true := beq_iff_eq.mpr h1.symm
        simp [dictInsert, if_pos h1, List.lookup, hb, hb2, h2.trans h1]
      · have hk : ¬ k' = k := fun hc => h2 (hc.trans h1.symm)
        have hb : (k' == k1) = false := beq_eq_false_iff_ne.mpr h2
        simp [dictInsert, if_pos h1, List.lookup, hb, hk]
    · by_cases h2 : k' = k1
      · have hk : ¬ k' = k := fun hc => h1 (h2.symm.trans hc)
        have hb : (k' == k1) = true := beq_iff_eq.mpr h2
        simp [dictInsert, if_neg h1, List.lookup, hb, hk]
      · have hb : (k' == k1) = false := beq_eq_false_iff_ne.mpr h2
        simp [dictInsert, if_neg h1, List.lookup, hb, ih]

theorem dictInsert_lookup_isSome (d : Dict) (k : String) (v : Value) (k' : String)
    (h : (d.lookup k').isSome) : ((dictInsert d k v).lookup k').isSome := by
  rw [dictInsert_lookup]
  by_cases hk : k' = k <;> simp [hk, h]

theorem dictUpdate_lookup_isSome (other : Dict) :
    ∀ (d : Dict) (k' : String), (d.lookup k').isSome →
      ((dictUpdate d other).lookup k').isSome := by
  induction other with
  | nil => intro d k' h; simpa [dictUpdate] using h
  | cons kv rest ih =>
    intro d k' h
    have : dictUpdate d (kv :: rest) = dictUpdate (dictInsert d kv.1 kv.2) rest := rfl
    rw [this]
    exact ih _ _ (dictInsert_lookup_isSome d kv.1 kv.2 k' h)

theorem applyInfo_lookup_isSome (entries : List (String × Option String)) :
    ∀ (d : Dict) (k' : String), (d.lookup k').isSome →
      ((applyInfo d entries).lookup k').isSome := by
  induction entries with
  | nil => intro d k' h; simpa [applyInfo] using h
  | cons kv rest ih =>
    intro d k' h
    have hstep : applyInfo d (kv :: rest) =
        applyInfo
          (match kv.2 with
           | some v =>
             match infoKeyField kv.1 with
             | some f => dictInsert d f (.vs v)
             | none => d
           | none => d) rest := rfl
    rw [hstep]
    apply ih
    cases kv.2 with
    | none => exact h
    | some v =>
      cases infoKeyField kv.1 with
      | none => exact h
      | some f => exact dictInsert_lookup_isSome d f (.vs v) k' h

theorem countryStep_lookup_isSome (d0 : Dict) (links : List GeoLink) (k' : String)
    (h : (d0.lookup k').isSome) : ((countryStep d0 links).lookup k').isSome := by
  unfold countryStep
  cases links.find? (fun l => isCountryLink l.href) with
  | none => exact h
  | some ct => exact dictInsert_lookup_isSome d0 "country" (.vs ct.text) k' h

theorem geoStep_lookup_isSome (d0 : Dict) (loc : Option (List GeoLink)) (d2 : Dict)
    (k' : String) (hgeo : geoStep d0 loc = some d2) (h : (d0.lookup k').isSome) :
    (d2.lookup k').isSome := by
  cases loc with
  | none =>
    simp only [geoStep] at hgeo
    cases hgeo
    exact h
  | some links =>
    cases hst : (links.filter (fun l => isStateLink l.href)).get? 1 with
    | none =>
      simp only [geoStep, hst] at hgeo
      cases hgeo
      exact countryStep_lookup_isSome d0 links k' h
    | some st =>
      simp only [geoStep, hst] at hgeo
      split at hgeo
      · cases hgeo
        exact countryStep_lookup_isSome d0 links k' h
      · split at hgeo
        · cases hgeo
          exact dictInsert_lookup_isSome _ _ _ k' (countryStep_lookup_isSome d0 links k' h)
        · cases hgeo

/- ### Tuition-scan lemmas -/

theorem tuitionRowStep_nomatch (td : List (String × String)) (r : List String)
    (h : rowMatches r = false) : tuitionRowStep td r = td := by
  cases r with
  | nil => rfl
  | cons c0 t =>
    cases t with
    | nil =>
      simp only [tuitionRowStep, List.head?]
      split <;> rfl
    | cons c1 t2 =>
      cases t2 with
      | nil =>
        simp only [tuitionRowStep, List.head?]
        split <;> rfl
      | cons c2 t3 =>
        simp only [rowMatches] at h
        simp [tuitionRowStep, List.head?, h]

theorem tuitionRowStep_match (td : List (String × String)) (r : List String)
    (h : rowMatches r = true)
    (hs : td = [] ∨ ∃ a b, td = [("domestic_tuition", a), ("international_tuition", b)]) :
    tuitionRowStep td r =
      [("domestic_tuition", r.getD 1 ""), ("international_tuition", r.getD 2 "")] := by
  cases r with
  | nil => simp [rowMatches] at h
  | cons c0 t =>
    cases t with
    | nil => simp [rowMatches] at h
    | cons c1 t2 =>
      cases t2 with
      | nil => simp [rowMatches] at h
      | cons c2 t3 =>
        simp only [rowMatches] at h
        rcases hs with rfl | ⟨a, b, rfl⟩
        · simp [tuitionRowStep, List.head?, h, dictInsertS]
        · simp [tuitionRowStep, List.head?, h, dictInsertS]

theorem lastStep_foldl_some (l : List (List String)) :
    ∀ r0 : List String,
      ∃ r', l.foldl (fun a r => if rowMatches r then some r else a) (some r0) = some r' := by
  induction l with
  | nil => intro r0; exact ⟨r0, rfl⟩
  | cons x xs ihl =>
    intro r0
    by_cases hx : rowMatches x = true
    · simpa [hx] using ihl x
    · have hx' : rowMatches x = false := by
        cases hb : rowMatches x
        · rfl
        · exact absurd hb hx
      simpa [hx'] using ihl r0

theorem tuitionScan_foldl (rows : List (List String)) :
    ∀ (td : List (String × String)) (acc : Option (List String)),
      ((td = [] ∧ acc = none) ∨
        (∃ r, rowMatches r = true ∧
          td = [("domestic_tuition", r.getD 1 ""), ("international_tuition", r.getD 2 "")] ∧
          acc = some r)) →
      rows.foldl tuitionRowStep td =
        (match rows.foldl (fun a r => if rowMatches r then some r else a) acc with
         | some r => [("domestic_tuition", r.getD 1 ""), ("international_tuition", r.getD 2 "")]
         | none => td) := by
  induction rows with
  | nil =>
    intro td acc hrel
    rcases hrel with ⟨rfl, rfl⟩ | ⟨r, hm, rfl, rfl⟩ <;> rfl
  | cons row rest ih =>
    intro td acc hrel
    by_cases hm : rowMatches row = true
    · have hstep : tuitionRowStep td row =
          [("domestic_tuition", row.getD 1 ""), ("international_tuition", row.getD 2 "")] := by
        apply tuitionRowStep_match td row hm
        rcases hrel with ⟨rfl, _⟩ | ⟨r, _, rfl, _⟩
        · exact Or.inl rfl
        · exact Or.inr ⟨_, _, rfl⟩
      simp only [List.foldl_cons, hstep, hm, if_pos]
      obtain ⟨r', hr'⟩ := lastStep_foldl_some rest row
      have hih := ih
        [("domestic_tuition", row.getD 1 ""), ("international_tuition", row.getD 2 "")]
        (some row) (Or.inr ⟨row, hm, rfl, rfl⟩)
      rw [hr'] at hih
      rw [hr']
      exact hih
    · have hm' : rowMatches row = false := by
        cases hb : rowMatches row
        · rfl
        · exact absurd hb hm
      have hstep := tuitionRowStep_nomatch td row hm'
      simp only [List.foldl_cons, hstep, hm']
      simp only [Bool.false_eq_true, if_false]
      exact ih _ _ hrel

/-- C2 (amended): when several tuition-table body rows satisfy the row
filter, the tuition fields come from the last such row that carries both
cells — the scan is exactly the last matching row's second and third cells —
while the sub-national region is still taken explicitly by position as the
second geographic link. -/
theorem c2_multiple_matches_last_row :
    (∀ rows : List (List String),
      tuitionScan rows =
        (match lastMatchingRow rows with
         | some r => [("domestic_tuition", r.getD 1 ""), ("international_tuition", r.getD 2 "")]
         | none => [])) ∧
    (∀ (d0 : Dict) (links : List GeoLink) (st : GeoLink),
      (links.filter (fun l => isStateLink l.href)).get? 1 = some st →
      ¬ st.text ∈ ["United States", "Canada"] → st.text ∈ nineStates →
      geoStep d0 (some links) = some (dictInsert (countryStep d0 links) "state" (.vs st.text))) := by
  constructor
  · intro rows
    exact tuitionScan_foldl rows [] none (Or.inl ⟨rfl, rfl⟩)
  · intro d0 links st hst hnc hnine
    simp only [geoStep, hst, if_neg hnc, if_pos hnine]

/-- Counterexample to C2 as stated: with two Graduate rows, the extracted
tuition comes from the second (last) row, not the first. -/
theorem c2_counterexample :
    tuitionScan [["Graduate, Full-time", "1", "2"], ["Graduate, Part-time", "3", "4"]] =
      [("domestic_tuition", "3"), ("international_tuition", "4")] ∧
    tuitionScan [["Graduate, Full-time", "1", "2"], ["Graduate, Part-time", "3", "4"]] ≠
      [("domestic_tuition", "1"), ("international_tuition", "2")] := by
  exact ⟨by decide, by decide⟩

/-- Witness for C2 (amended) at concrete inputs. -/
theorem c2_multiple_matches_witness :
    tuitionScan [["Graduate", "10", "20"]] =
      [("domestic_tuition", "10"), ("international_tuition", "20")] ∧
    geoStep [] (some nyGeoLinks) =
      some (dictInsert (countryStep [] nyGeoLinks) "state" (.vs "New York")) := by
  constructor
  · exact (c2_multiple_matches_last_row.1 [["Graduate", "10", "20"]]).trans (by decide)
  · exact c2_multiple_matches_last_row.2 [] nyGeoLinks
      ⟨"https://edurank.org/geo/us/new-york/", "New York"⟩ (by decide) (by decide) (by decide)

/- ### Skipping lemma and C3 -/

theorem scrape_skip_mid (fetch : String → Dict) (c : Container)
    (hsk : processContainer fetch c = .skipped) :
    ∀ pre post, scrapeUniversityList fetch (pre ++ c :: post) =
      scrapeUniversityList fetch (pre ++ post) := by
  intro pre post
  induction pre with
  | nil => simp [scrapeUniversityList, hsk]
  | cons c' pre' ih =>
    simp only [List.cons_append, scrapeUniversityList]
    cases processContainer fetch c' <;> simp [ih]

/-- C3: an entity container whose extracted sub-national region (the second
geographic link, surviving the country-name suppression) is outside the
nine-region allow-list is skipped entirely: it contributes nothing to the
returned list and nothing to the created store entries. -/
theorem c3_region_allowlist_skip (fetch : String → Dict) (c : Container)
    (h2 : H2Node) (links : List GeoLink) (st : GeoLink)
    (hh2 : c.h2 = some h2)
    (hloc : c.locationDiv = some links)
    (hst : (links.filter (fun l => isStateLink l.href)).get? 1 = some st)
    (hnc : ¬ st.text ∈ ["United States", "Canada"])
    (hnine : ¬ st.text ∈ nineStates) :
    processContainer fetch c = .skipped ∧
    ∀ pre post, scrapeUniversityList fetch (pre ++ c :: post) =
      scrapeUniversityList fetch (pre ++ post) := by
  have hsk : processContainer fetch c = .skipped := by
    simp only [processContainer, hh2, geoStep, hloc, hst, if_neg hnc, if_neg hnine]
  exact ⟨hsk, scrape_skip_mid fetch c hsk⟩

/-- Witness for C3 at the concrete California container. -/
theorem c3_region_allowlist_witness :
    processContainer (fun _ => []) cCalifornia = .skipped ∧
    scrapeUniversityList (fun _ => []) ([cPlainName] ++ cCalifornia :: []) =
      scrapeUniversityList (fun _ => []) ([cPlainName] ++ []) := by
  have h := c3_region_allowlist_skip (fun _ => []) cCalifornia
    ⟨some ⟨"5. Stanford University", some "https://edurank.org/uni/stanford"⟩⟩
    [⟨"https://edurank.org/geo/us/", "United States"⟩,
     ⟨"https://edurank.org/geo/us/california/", "California"⟩]
    ⟨"https://edurank.org/geo/us/california/", "California"⟩
    rfl rfl (by decide) (by decide) (by decide)
  exact ⟨h.1, h.2 [cPlainName] []⟩

/- ### C6: detail-fetch failure degrades to an empty merge -/

theorem processContainer_fetch_congr (fetch g : String → Dict) (c : Container)
    (h : ∀ u, detailLink c = some u → fetch u = g u) :
    processContainer fetch c = processContainer g c := by
  cases hh2 : c.h2 with
  | none => simp [processContainer, hh2]
  | some h2 =>
    simp only [processContainer, hh2]
    cases geoStep (nameDict h2) c.locationDiv with
    | none => rfl
    | some d2 =>
      cases hl : linkOf h2 with
      | none => simp [mergeDetails, hl]
      | some u =>
        have hd : detailLink c = some u := by simp [detailLink, hh2, hl]
        simp [mergeDetails, hl, h u hd]

/-- C6 (amended): a failed per-entity detail fetch — a network error, a
structural mismatch, or any other exception — yields the empty detail dict,
and an empty detail dict or an absent detail-page link leaves the merged
record exactly equal to the summary-only record; the missing detail data
raises no error, and an entity whose name link is present finishes without
error (skipped or completed).  However, a container whose heading carries no
link at all still fails name validation (see the counterexample). -/
theorem c6_failed_fetch_empty_merge :
    (∀ (r : Except Unit DetailDoc),
      (r = .error () ∨ ∃ doc e, r = .ok doc ∧ detailsExtract doc = .error e) →
      scrape_university_details r = []) ∧
    (∀ (fetch : String → Dict) (c : Container), detailLink c = none →
      processContainer fetch c = processContainer (fun _ => []) c) ∧
    (∀ (fetch : String → Dict) (c : Container),
      (∀ u, detailLink c = some u → fetch u = []) →
      processContainer fetch c = processContainer (fun _ => []) c) ∧
    (∀ (fetch : String → Dict) (c : Container) (h2 : H2Node) (nt : NameLink),
      c.h2 = some h2 → h2.firstA = some nt →
      processContainer fetch c = .skipped ∨ ∃ d, processContainer fetch c = .ok d) := by
  refine ⟨?_, ?_, ?_, ?_⟩
  · intro r hr
    rcases hr with rfl | ⟨doc, e, rfl, he⟩
    · rfl
    · simp [scrape_university_details, he]
  · intro fetch c h
    apply processContainer_fetch_congr
    intro u hu
    rw [h] at hu
    cases hu
  · intro fetch c h
    apply processContainer_fetch_congr
    intro u hu
    rw [h u hu]
  · intro fetch c h2 nt hh2 hnt
    simp only [processContainer, hh2]
    cases hgeo : geoStep (nameDict h2) c.locationDiv with
    | none => exact Or.inl rfl
    | some d2 =>
      refine Or.inr ⟨mergeDetails fetch (infoStep d2 c.infoList) (linkOf h2), ?_⟩
      have hname0 : ((nameDict h2).lookup "name").isSome := by
        simp [nameDict, hnt, List.lookup]
      have hname2 : (d2.lookup "name").isSome :=
        geoStep_lookup_isSome _ _ _ _ hgeo hname0
      have hname3 : ((infoStep d2 c.infoList).lookup "name").isSome := by
        cases hil : c.infoList with
        | none => simpa [infoStep] using hname2
        | some es => exact applyInfo_lookup_isSome es d2 "name" hname2
      have hname4 : ((mergeDetails fetch (infoStep d2 c.infoList) (linkOf h2)).lookup "name").isSome := by
        cases hl : linkOf h2 with
        | none => simpa [mergeDetails] using hname3
        | some u => exact dictUpdate_lookup_isSome _ _ _ hname3
      simp [finalize, hname4]

/-- Counterexample to C6 as stated: a container whose heading holds no `<a>`
has no detail-page link, yet processing it raises a validation error (the
record lacks a name), which aborts the whole call. -/
theorem c6_counterexample :
    detailLink cNoNameLink = none ∧
    processContainer (fun _ => []) cNoNameLink = .createdButError [] .validationError ∧
    scrapeUniversityList (fun _ => []) [cNoNameLink] = (.error .validationError, [[]]) := by
  exact ⟨rfl, rfl, rfl⟩

/-- Witness for C6 (amended): a concrete linked container whose detail fetch
fails merges to exactly the summary-only record. -/
theorem c6_failed_fetch_witness :
    processContainer fetchEmptyOnB cLinked = processContainer (fun _ => []) cLinked ∧
    processContainer (fun _ => []) cLinked = .ok [("name", .vs "B University")] := by
  constructor
  · apply c6_failed_fetch_empty_merge.2.2.1 fetchEmptyOnB cLinked
    intro u hu
    have : u = "https://edurank.org/uni/b" := by
      have h' : some "https://edurank.org/uni/b" = some u := hu
      cases h'
      rfl
    rw [this]
    rfl
  · rfl

/-- Counterexample to C1 as stated: in the scrape-and-store workflow a
failure while processing one entity container (here: a container with no
`<h2>` heading) is not caught per item — the whole batch aborts with a
caller-facing error, and a perfectly processable later container is never
returned. -/
theorem c1_counterexample :
    processContainer (fun _ => []) cPlainName = .ok [("name", .vs "A University")] ∧
    scrapeUniversityList (fun _ => []) [cNoH2, cPlainName] = (.error .attributeError, []) := by
  exact ⟨rfl, rfl⟩

/- ### Workflow loop lemmas and C1 -/

theorem runEntries_skip {C : Type} (body : JVal → Except PyErr (Option C)) (e : JVal)
    (he : entryStep body e = .ok []) :
    ∀ pre post, runEntries body (pre ++ e :: post) = runEntries body (pre ++ post) := by
  intro pre post
  induction pre with
  | nil =>
    simp only [List.nil_append, runEntries, he]
  | cons c' pre' ih =>
    simp only [List.cons_append, runEntries]
    have ih' : runEntries body (pre'.append (e :: post)) =
        runEntries body (pre'.append post) := ih
    cases entryStep body c' with
    | error err => rfl
    | ok cs => rw [ih']

theorem workflowLoop_isolated {C : Type} (body : JVal → Except PyErr (Option C)) (e : JVal)
    (he : entryStep body e = .ok []) (pre post : List JVal) :
    workflowLoop body (pre ++ e :: post) =
      (if (pre ++ post).isEmpty then ((.ok .success : Except PyErr WStatus), ([] : List C))
       else workflowLoop body (pre ++ post)) := by
  by_cases hpp : (pre ++ post).isEmpty = true
  · have hnil : pre ++ post = [] := List.isEmpty_iff.mp hpp
    have hpre : pre = [] := by
      cases pre with
      | nil => rfl
      | cons a l => simp at hnil
    subst hpre
    have hpost : post = [] := by simpa using hnil
    subst hpost
    rw [if_pos hpp]
    show workflowLoop body [e] = (.ok .success, [])
    unfold workflowLoop
    rw [if_neg (by simp)]
    simp [runEntries, he]
  · rw [if_neg hpp]
    unfold workflowLoop
    rw [if_neg (by cases pre <;> simp), if_neg hpp]
    exact runEntries_skip body e he pre post

theorem workflowLoop_abort {C : Type} (body : JVal → Except PyErr (Option C)) (e : JVal)
    (err2 : PyErr) (he : entryStep body e = .error err2) (post : List JVal) :
    workflowLoop body (e :: post) = (.error err2, []) := by
  unfold workflowLoop
  rw [if_neg (by simp)]
  simp [runEntries, he]

/-- C1 (amended): per-item isolation in the three stored-entry workflows is
conditional on the error handler itself.  When processing an entry fails,
the exception is caught and the handler logs the entry's name; if that name
lookup (which re-reads the raw entry) succeeds, iteration continues, the
failed entry contributes nothing, and the call behaves exactly as if the
entry were absent — no caller-facing error.  If the handler's name lookup
itself raises (a malformed entry), the exception escapes the loop and the
endpoint aborts with a caller-facing error.  The scrape-and-store workflow
has no per-item handler at all: an exception while processing one entity
container aborts the whole batch as a caller-facing error.  The initial
ranking-page fetch remains whole-call-fatal. -/
theorem c1_per_item_isolation :
    (∀ (search : String → Option String) (pre post : List JVal) (e : JVal)
        (err : PyErr) (w : JVal),
      updateBody search e = .error err → handlerName e = .ok w →
        update_program_details search (pre ++ e :: post) =
          (if (pre ++ post).isEmpty
           then ((.ok .success : Except PyErr WStatus), ([] : List (JVal × String)))
           else update_program_details search (pre ++ post))) ∧
    (∀ (search : String → Option String) (post : List JVal) (e : JVal)
        (err err2 : PyErr),
      updateBody search e = .error err → handlerName e = .error err2 →
        update_program_details search (e :: post) = (.error err2, [])) ∧
    (∀ (fc : JVal → FcRes) (pre post : List JVal) (e : JVal) (err : PyErr) (w : JVal),
      scrapeProgBody fc e = .error err → handlerName e = .ok w →
        scrape_program_details fc (pre ++ e :: post) =
          (if (pre ++ post).isEmpty
           then ((.ok .success : Except PyErr WStatus), ([] : List (JVal × String)))
           else scrape_program_details fc (pre ++ post))) ∧
    (∀ (fc : JVal → FcRes) (post : List JVal) (e : JVal) (err err2 : PyErr),
      scrapeProgBody fc e = .error err → handlerName e = .error err2 →
        scrape_program_details fc (e :: post) = (.error err2, [])) ∧
    (∀ (α : Type) (download : String → Nat × String)
        (gemini : String → Except PyErr String) (parse : String → Option α)
        (pre post : List JVal) (e : JVal) (err : PyErr) (w : JVal),
      summariesBody download gemini parse e = .error err → handlerName e = .ok w →
        create_program_summaries download gemini parse (pre ++ e :: post) =
          (if (pre ++ post).isEmpty
           then ((.ok .success : Except PyErr WStatus), ([] : List (JVal × α)))
           else create_program_summaries download gemini parse (pre ++ post))) ∧
    (∀ (α : Type) (download : String → Nat × String)
        (gemini : String → Except PyErr String) (parse : String → Option α)
        (post : List JVal) (e : JVal) (err err2 : PyErr),
      summariesBody download gemini parse e = .error err → handlerName e = .error err2 →
        create_program_summaries download gemini parse (e :: post) = (.error err2, [])) ∧
    (∀ (fetch : String → Dict) (c : Container) (post : List Container) (err : PyErr),
      processContainer fetch c = .earlyError err →
        scrapeUniversityList fetch (c :: post) = (.error err, [])) := by
  refine ⟨?_, ?_, ?_, ?_, ?_, ?_, ?_⟩
  · intro search pre post e err w hbody hhandler
    have he : entryStep (updateBody search) e = .ok [] := by
      simp [entryStep, hbody, hhandler]
    exact workflowLoop_isolated (updateBody search) e he pre post
  · intro search post e err err2 hbody hhandler
    have he : entryStep (updateBody search) e = .error err2 := by
      simp [entryStep, hbody, hhandler]
    exact workflowLoop_abort (updateBody search) e err2 he post
  · intro fc pre post e err w hbody hhandler
    have he : entryStep (scrapeProgBody fc) e = .ok [] := by
      simp [entryStep, hbody, hhandler]
    exact workflowLoop_isolated (scrapeProgBody fc) e he pre post
  · intro fc post e err err2 hbody hhandler
    have he : entryStep (scrapeProgBody fc) e = .error err2 := by
      simp [entryStep, hbody, hhandler]
    exact workflowLoop_abort (scrapeProgBody fc) e err2 he post
  · intro α download gemini parse pre post e err w hbody hhandler
    have he : entryStep (summariesBody download gemini parse) e = .ok [] := by
      simp [entryStep, hbody, hhandler]
    exact workflowLoop_isolated (summariesBody download gemini parse) e he pre post
  · intro α download gemini parse post e err err2 hbody hhandler
    have he : entryStep (summariesBody download gemini parse) e = .error err2 := by
      simp [entryStep, hbody, hhandler]
    exact workflowLoop_abort (summariesBody download gemini parse) e err2 he post
  · intro fetch c post err h
    simp [scrapeUniversityList, h]

/-- Witness for C1 (amended): an entry whose body raises but whose handler
lookup succeeds is skipped and the batch proceeds as if it were absent; an
entry malformed enough that the handler lookup itself raises aborts the
whole call with a caller-facing error. -/
theorem c1_per_item_isolation_witness :
    updateBody searchW entryHandled = .error .attributeError ∧
    handlerName entryHandled = .ok (.str "X University") ∧
    update_program_details searchW [entryHandled, entryGood] =
      update_program_details searchW [entryGood] ∧
    updateBody searchW entryBad = .error .attributeError ∧
    handlerName entryBad = .error .attributeError ∧
    update_program_details searchW [entryBad, entryGood] = (.error .attributeError, []) := by
  have h1 : updateBody searchW entryHandled = .error .attributeError := rfl
  have h2 : handlerName entryHandled = .ok (.str "X University") := rfl
  have h3 := c1_per_item_isolation.1 searchW [] [entryGood] entryHandled .attributeError
    (.str "X University") h1 h2
  have h4 : updateBody searchW entryBad = .error .attributeError := rfl
  have h5 : handlerName entryBad = .error .attributeError := rfl
  have h6 := c1_per_item_isolation.2.1 searchW [entryGood] entryBad
    .attributeError .attributeError h4 h5
  exact ⟨h1, h2, h3.trans rfl, h4, h5, h6⟩

/- ### Pagination lemmas, C7 and C9 -/

theorem listAllLoop_map_ok {H : Type} (pages : List (List H)) :
    ∀ (fuel cursor : Nat), pages.length ≤ cursor + fuel →
      listAllLoop (pages.map Except.ok) cursor = .ok ((pages.drop cursor).join) := by
  intro fuel
  induction fuel with
  | zero =>
    intro cursor hc
    have hnone : (pages.map (Except.ok : List H → Except String (List H))).get? cursor
        = none := by
      rw [List.get?_eq_none]
      simpa using hc
    rw [listAllLoop, hnone]
    have hd : pages.drop cursor = [] := List.drop_eq_nil_of_le (by omega)
    rw [hd]
    rfl
  | succ n ih =>
    intro cursor hc
    cases hg : pages.get? cursor with
    | none =>
      have hlen : pages.length ≤ cursor := List.get?_eq_none.mp hg
      have hnone : (pages.map (Except.ok : List H → Except String (List H))).get? cursor
          = none := by
        rw [List.get?_eq_none]
        simpa using hlen
      rw [listAllLoop, hnone]
      have hd : pages.drop cursor = [] := List.drop_eq_nil_of_le hlen
      rw [hd]
      rfl
    | some rs =>
      have hlt : cursor < pages.length := by
        by_contra hge
        rw [List.get?_eq_none.mpr (by omega)] at hg
        simp at hg
      have hmg : (pages.map (Except.ok : List H → Except String (List H))).get? cursor
          = some (Except.ok rs) := by
        rw [List.get?_map, hg]
        rfl
      have hdrop : pages.drop cursor = rs :: pages.drop (cursor + 1) := by
        have h1 := List.drop_eq_getElem_cons hlt
        have h2 : pages[cursor] = rs := by
          have h3 : pages[cursor]? = some pages[cursor] := List.getElem?_eq_getElem hlt
          rw [← List.get?_eq_getElem?] at h3
          rw [hg] at h3
          exact (Option.some.inj h3).symm
        rw [h2] at h1
        exact h1
      rw [listAllLoop, hmg]
      dsimp only
      by_cases hnext : cursor + 1 < pages.length
      · rw [dif_pos (by rw [List.length_map]; exact hnext)]
        rw [ih (cursor + 1) (by omega)]
        rw [hdrop]
        rfl
      · rw [dif_neg (by rw [List.length_map]; exact hnext)]
        have hle : pages.length ≤ cursor + 1 := by omega
        have hd2 : pages.drop (cursor + 1) = [] := List.drop_eq_nil_of_le hle
        rw [hdrop, hd2]
        simp

theorem listAllLoop_error {H : Type} (pre : List (List H)) (e : String)
    (post : List (Except String (List H))) :
    ∀ (fuel cursor : Nat), cursor ≤ pre.length → pre.length ≤ cursor + fuel →
      listAllLoop (pre.map Except.ok ++ .error e :: post) cursor = .error e := by
  intro fuel
  induction fuel with
  | zero =>
    intro cursor hc1 hc2
    have hcur : cursor = pre.length := by omega
    subst hcur
    have hget : (pre.map (Except.ok : List H → Except String (List H)) ++
        Except.error e :: post).get? pre.length = some (Except.error e) := by
      rw [List.get?_append_right (by simp)]
      simp
    rw [listAllLoop, hget]
  | succ n ih =>
    intro cursor hc1 hc2
    by_cases hcur : cursor = pre.length
    · subst hcur
      have hget : (pre.map (Except.ok : List H → Except String (List H)) ++
          Except.error e :: post).get? pre.length = some (Except.error e) := by
        rw [List.get?_append_right (by simp)]
        simp
      rw [listAllLoop, hget]
    · have hlt : cursor < pre.length := by omega
      have hsome : ∃ rs, (pre.map (Except.ok : List H → Except String (List H)) ++
          Except.error e :: post).get? cursor = some (Except.ok rs) := by
        rw [List.get?_append (by simpa using hlt)]
        rw [List.get?_map]
        have hx : ∃ a, pre.get? cursor = some a := by
          rw [List.get?_eq_getElem?]
          exact ⟨pre[cursor], List.getElem?_eq_getElem hlt⟩
        obtain ⟨a, ha⟩ := hx
        exact ⟨a, by rw [ha]; rfl⟩
      obtain ⟨rs, hget⟩ := hsome
      rw [listAllLoop, hget]
      dsimp only
      have hlen : cursor + 1 < (pre.map (Except.ok : List H → Except String (List H)) ++
          Except.error e :: post).length := by
        simp
        omega
      rw [dif_pos hlen]
      rw [ih (cursor + 1) (by omega) (by omega)]

theorem get_all_entries_error {H : Type} (pre : List (List H)) (e : String)
    (post : List (Except String (List H))) :
    get_all_university_entries (pre.map Except.ok ++ .error e :: post) = [] := by
  unfold get_all_university_entries
  rw [listAllLoop_error pre e post pre.length 0 (by omega) (by omega)]

/-- C7: over a store presenting cursor-based paginated responses (any number
of pages, in particular three or more), `list_all` returns exactly the
concatenation of every page's result list in order — so no handle is
duplicated and none is missed. -/
theorem c7_list_all_concat_pages {H : Type} (pages : List (List H)) :
    get_all_university_entries (pages.map Except.ok) = pages.join := by
  unfold get_all_university_entries
  rw [listAllLoop_map_ok pages pages.length 0 (by omega)]
  simp

/-- C9: a store error during any pagination step — even after pages have
been fetched successfully — makes `list_all` return the empty list,
discarding every partial result; the outcome equals that of a store with
zero entries, and each of the three stored-entry workflows then reports the
no-entries completion status instead of an error. -/
theorem c9_store_error_empty_list :
    (∀ (H : Type) (pre : List (List H)) (e : String)
        (post : List (Except String (List H))),
      get_all_university_entries (pre.map Except.ok ++ .error e :: post) = []) ∧
    (∀ (H : Type), get_all_university_entries ([Except.ok ([] : List H)]) = []) ∧
    (∀ (search : String → Option String) (pre : List (List JVal)) (e : String)
        (post : List (Except String (List JVal))),
      update_program_details search
        (get_all_university_entries (pre.map Except.ok ++ .error e :: post)) =
        (.ok .noEntries, [])) ∧
    (∀ (fc : JVal → FcRes) (pre : List (List JVal)) (e : String)
        (post : List (Except String (List JVal))),
      scrape_program_details fc
        (get_all_university_entries (pre.map Except.ok ++ .error e :: post)) =
        (.ok .noEntries, [])) ∧
    (∀ (α : Type) (download : String → Nat × String)
        (gemini : String → Except PyErr String) (parse : String → Option α)
        (pre : List (List JVal)) (e : String)
        (post : List (Except String (List JVal))),
      create_program_summaries download gemini parse
        (get_all_university_entries (pre.map Except.ok ++ .error e :: post)) =
        (.ok .noEntries, [])) := by
  refine ⟨?_, ?_, ?_, ?_, ?_⟩
  · intro H pre e post
    exact get_all_entries_error pre e post
  · intro H
    show get_all_university_entries (([[]] : List (List H)).map Except.ok) = []
    unfold get_all_university_entries
    rw [listAllLoop_map_ok ([[]] : List (List H)) 1 0 (by simp)]
    simp
  · intro search pre e post
    rw [get_all_entries_error]
    rfl
  · intro fc pre e post
    rw [get_all_entries_error]
    rfl
  · intro α download gemini parse pre e post
    rw [get_all_entries_error]
    rfl

/- ### C8: the three update facets -/

/-- C8 (amended): the three update facets are applied independently — the
property patch exactly when a nonempty patch mapping is provided (an empty
but provided patch is silently skipped), the artifact upload exactly when a
nonempty path naming an existing file is provided (then the bytes are
uploaded, the file reference is written to the fixed Markdown property, and
the local artifact is deleted afterwards), and the block append exactly when
a block sequence, even an empty one, is provided.  When the upload fails,
the artifact is not deleted. -/
theorem c8_update_facets :
    (∀ (env : NotionEnv) (pid : String) (props : Option (List (String × JVal)))
        (content : Option (List JVal)) (mp : Option String),
      env.propsUpdateOk = true → env.uploadOk = true → env.mdUpdateOk = true →
      env.appendOk = true →
      update_university_entry env pid props content mp =
        (true,
          propsCallsOf pid props ++
          (match mp with
           | some m =>
             if (m != "") && env.fileExists m then
               [.upload m, .markdownWrite pid (env.uploadFid m), .unlink m]
             else []
           | none => []) ++
          (match content with
           | some c => [.appendChildren pid c]
           | none => []))) ∧
    (∀ (env : NotionEnv) (pid : String) (props : Option (List (String × JVal)))
        (content : Option (List JVal)) (m : String),
      env.propsUpdateOk = true → env.uploadOk = false →
      ((m != "") && env.fileExists m) = true →
      update_university_entry env pid props content (some m) =
        (false, propsCallsOf pid props ++ [.upload m])) := by
  constructor
  · intro env pid props content mp h1 h2 h3 h4
    have hpf : propsFails env props = false := by
      cases props <;> simp [propsFails, h1]
    cases mp with
    | none =>
      cases content <;> simp [update_university_entry, hpf, contentStep, h4]
    | some m =>
      by_cases hm : ((m != "") && env.fileExists m) = true
      · cases content <;>
          simp [update_university_entry, hpf, hm, h2, h3, h4, contentStep]
      · have hm' : ((m != "") && env.fileExists m) = false := by
          cases hb : ((m != "") && env.fileExists m)
          · rfl
          · exact absurd hb hm
        cases content <;> simp [update_university_entry, hpf, hm', contentStep, h4]
  · intro env pid props content m h1 h2 hm
    have hpf : propsFails env props = false := by
      cases props <;> simp [propsFails, h1]
    simp [update_university_entry, hpf, hm, h2]

/-- Counterexample to C8 as stated: an empty property patch is provided (not
`None`), yet no property-update call is made — the facet is not applied
although its argument was provided. -/
theorem c8_counterexample :
    update_university_entry envAllOk "p" (some []) none none = (true, []) ∧
    (some ([] : List (String × JVal))).isSome = true :=
  ⟨rfl, rfl⟩

/-- Witness for C8 (amended): all three facets provided and applied, in
order, with the unlink after the successful upload and Markdown write. -/
theorem c8_update_facets_witness :
    update_university_entry envAllOk "p" (some [("k", JVal.str "v")]) (some []) (some "f") =
      (true, [.pagesUpdate "p" [("k", JVal.str "v")], .upload "f",
              .markdownWrite "p" "fid", .unlink "f", .appendChildren "p" []]) := by
  have h := c8_update_facets.1 envAllOk "p" (some [("k", JVal.str "v")]) (some []) (some "f")
    rfl rfl rfl rfl
  exact h.trans rfl

/- ### C10: create with a missing name -/

/-- C10: the Entry Store create operation never fails because of a missing
name — a record without `name` (or without `state`) is persisted with the
empty string substituted, so the "name is always present" invariant is not
enforced at the create boundary; the only source of a `None` result is a
store-level error. -/
theorem c10_create_defaults_missing_name {Page : Type}
    (createPage : PageProps → Except String Page) (data : Dict)
    (hname : data.lookup "name" = none) :
    (buildCreateProps data).nameTitle = .vs "" ∧
    (data.lookup "state" = none → (buildCreateProps data).stateText = .vs "") ∧
    (∀ pg, createPage (buildCreateProps data) = .ok pg →
      create_university_entry createPage data = some pg) ∧
    (create_university_entry createPage data = none →
      ∃ err, createPage (buildCreateProps data) = .error err) := by
  refine ⟨?_, ?_, ?_, ?_⟩
  · simp [buildCreateProps, hname]
  · intro hs
    simp [buildCreateProps, hs]
  · intro pg hpg
    simp [create_university_entry, hpg]
  · intro hnone
    cases hc : createPage (buildCreateProps data) with
    | ok p =>
      unfold create_university_entry at hnone
      rw [hc] at hnone
      simp at hnone
    | error err => exact ⟨err, rfl⟩

/-- Witness for C10: the empty record is created as a page with an
empty-string title. -/
theorem c10_create_defaults_witness :
    (([] : Dict).lookup "name" = none) ∧
    (buildCreateProps ([] : Dict)).nameTitle = .vs "" ∧
    create_university_entry (fun _ => Except.ok (0 : Nat)) ([] : Dict) = some 0 := by
  have h := c10_create_defaults_missing_name (fun _ => Except.ok (0 : Nat)) ([] : Dict) rfl
  exact ⟨rfl, h.1, h.2.2.1 0 rfl⟩
